import Mathlib

/-!
Verification development for the human-gated, file-backed workflow state
machine: retrying executor, approval gateway, idempotent ingestion,
risk classifier, audit log, and scheduler lock.
-/

/-- Decides whether the character list needle occurs contiguously inside hay. -/
def containsSub (needle hay : List Char) : Bool :=
  match hay with
  | [] => needle.isEmpty
  | _ :: t => needle.isPrefixOf hay || containsSub needle t

/-- Lowercases a string character by character, mirroring Python str.lower on ASCII. -/
def strLower (s : String) : String :=
  ⟨s.data.map Char.toLower⟩

/-- Case-sensitive substring test on strings. -/
def strContains (hay needle : String) : Bool :=
  containsSub needle.data hay.data

/-- Tests whether the string s ends with the given pattern, mirroring the
Python str.endswith calls of the file-lookup helpers. -/
def strEndsWith (s pat : String) : Bool :=
  pat.data.isSuffixOf s.data

/-- Tests whether any of the keywords occurs in the (already lowercased) content,
mirroring the Python idiom any(kw in content_lower for kw in kws). -/
def anyKeyword (contentLower : String) (kws : List String) : Bool :=
  kws.any (fun kw => strContains contentLower kw)

namespace RetryHandler

/-- Result of one performer call: the performer either reports success or a
failure carrying an error description (an exception is reported the same way). -/
inductive CallResult where
  | success
  | failure (err : String)
deriving DecidableEq, Repr

/-- Outcome of execute_with_retry: overall success flag, how many times the
performer was invoked, and the last error on exhaustion. -/
structure RetryOutcome where
  success : Bool
  invocations : Nat
  lastError : Option String
deriving DecidableEq, Repr

/-- Default max retries from mcp_executor.py (DEFAULT_MAX_RETRIES = 3). -/
def DEFAULT_MAX_RETRIES : Nat := 3

/-- Loop body of RetryHandler.execute_with_retry: attempts run from the given
attempt number while some remain; a successful performer call returns at once,
a failed call records the error and continues with the next attempt. -/
def executeWithRetryAux (performer : Nat → CallResult) (attempt remaining : Nat) :
    RetryOutcome :=
  match remaining with
  | 0 => { success := false, invocations := 0, lastError := none }
  | r + 1 =>
    match performer attempt with
    | .success => { success := true, invocations := 1, lastError := none }
    | .failure e =>
      let rest := executeWithRetryAux performer (attempt + 1) r
      { success := rest.success
        invocations := rest.invocations + 1
        lastError := if rest.invocations = 0 then some e else rest.lastError }

/-- Model of RetryHandler.execute_with_retry from mcp_executor.py: runs the
performer for attempts 1 .. maxRetries, stopping at the first success. The
performer result is the only input consulted: no risk level and no error-type
classification is read anywhere in the loop. -/
def executeWithRetry (performer : Nat → CallResult) (maxRetries : Nat) : RetryOutcome :=
  executeWithRetryAux performer 1 maxRetries

end RetryHandler

namespace ErrorRecoverySystem

/-- Error types that the error recovery system never retries
(error_recovery.py, _should_retry). -/
def noRetryErrors : List String :=
  ["PermissionError", "ValidationError", "ConfigurationError", "AuthenticationError"]

/-- Model of ErrorRecoverySystem._should_retry: refuses retry for critical
severity and for the listed non-retryable error types, allows it otherwise. -/
def shouldRetry (errorType severity : String) : Bool :=
  if severity = "critical" then false
  else if noRetryErrors.contains errorType then false
  else true

end ErrorRecoverySystem

namespace RalphWiggum

/-- Risk level enumeration from ralph_wiggum.py. -/
inductive RiskLevel where
  | low | medium | high | critical
deriving DecidableEq, Repr

/-- The fields of the analysis dict that the keyword rules of _analyze_task
assign (task_type, risk_level, requires_approval). -/
structure Analysis where
  taskType : String
  riskLevel : RiskLevel
  requiresApproval : Bool
deriving DecidableEq, Repr

/-- Model of RalphWiggumLoop._analyze_task keyword classification: four
sequential non-exclusive if blocks over the lowercased content, each
overwriting task_type, risk_level and requires_approval; defaults are
general, low, no approval. -/
def analyzeTask (content : String) : Analysis :=
  let cl := strLower content
  let a0 : Analysis := { taskType := "general", riskLevel := .low, requiresApproval := false }
  let a1 := if anyKeyword cl ["email", "send", "recipient"] then
      { taskType := "email", riskLevel := RiskLevel.medium, requiresApproval := true }
    else a0
  let a2 := if anyKeyword cl ["linkedin", "post", "social"] then
      { taskType := "social_media", riskLevel := RiskLevel.medium, requiresApproval := true }
    else a1
  let a3 := if anyKeyword cl ["delete", "remove", "destroy"] then
      { taskType := "destructive", riskLevel := RiskLevel.high, requiresApproval := true }
    else a2
  let a4 := if anyKeyword cl ["payment", "money", "transfer", "invoice"] then
      { taskType := "financial", riskLevel := RiskLevel.high, requiresApproval := true }
    else a3
  a4

end RalphWiggum

namespace TaskPlanner

/-- Model of the task_type assignment in task_planner._analyze_content: four
sequential if blocks over the lowercased content, later matches overwriting
earlier ones; the default is general. No financial type exists here. -/
def taskTypeOf (content : String) : String :=
  let cl := strLower content
  let t1 := if anyKeyword cl ["email", "send", "recipient", "subject"] then "email" else "general"
  let t2 := if anyKeyword cl ["linkedin", "post", "social", "publish"] then "social_media" else t1
  let t3 := if anyKeyword cl ["report", "analysis", "document", "review"] then "document_review" else t2
  let t4 := if anyKeyword cl ["meeting", "schedule", "calendar", "attend"] then "scheduling" else t3
  t4

/-- Model of the priority assignment in task_planner._analyze_content: urgency
keywords set the priority field (not any risk tier) to urgent. -/
def priorityOf (content : String) : String :=
  if anyKeyword (strLower content) ["urgent", "asap", "immediate", "priority", "critical"] then
    "urgent"
  else "normal"

end TaskPlanner

/-- Looks up a filename in a directory modeled as an association list of
(filename, content) pairs, in listing order. -/
def lookupFile (dir : List (String × String)) (name : String) : Option String :=
  (dir.find? (fun f => f.fst = name)).map Prod.snd

/-- Tests whether a directory already holds a file of the given name. -/
def hasName (dir : List (String × String)) (name : String) : Bool :=
  dir.any (fun f => f.fst = name)

/-- Writes a file into a directory with the overwrite semantics of open-for-write
and of shutil.move onto an existing destination: an existing entry of the same
name is replaced, otherwise the file is appended. -/
def writeFile (dir : List (String × String)) (name content : String) :
    List (String × String) :=
  if hasName dir name then
    dir.map (fun f => if f.fst = name then (name, content) else f)
  else dir ++ [(name, content)]

/-- Splits a filename at its last dot, mirroring os.path.splitext for the
ordinary names used here (base, extension including the dot). -/
def splitExt (s : String) : String × String :=
  match s.data.reverse.indexOf? '.' with
  | none => (s, "")
  | some k =>
    let i := s.data.length - 1 - k
    (⟨s.data.take i⟩, ⟨s.data.drop i⟩)

/-- Builds the collision-avoidance name base_timestamp.ext that both
finalize_request and _move_to_done fall back to when the destination exists. -/
def tsName (filename ts : String) : String :=
  let be := splitExt filename
  be.fst ++ "_" ++ ts ++ be.snd

/-- Destination-name choice shared by finalize_request and _move_to_done: the
plain name if it is free in the destination directory, else the
timestamp-suffixed name. The choice is made once and never re-checked. -/
def chooseDest (dir : List (String × String)) (filename ts : String) : String :=
  if hasName dir filename then tsName filename ts else filename

namespace ReqApproval

/-- Approval status enumeration from request_approval.py. -/
inductive ApprovalStatus where
  | PENDING | APPROVED | REJECTED | TIMEOUT
deriving DecidableEq, Repr

/-- Final approval result enumeration from request_approval.py. -/
inductive ApprovalResult where
  | approved | rejected | timeout
deriving DecidableEq, Repr

/-- Model of ApprovalRequestManager._parse_status: case-insensitive substring
search over the whole document, checking the two approved markers first and
the two rejected markers second; anything else is PENDING. -/
def parseStatus (content : String) : ApprovalStatus :=
  let cl := strLower content
  if strContains cl "status: approved" || strContains cl "**status:** approved" then
    ApprovalStatus.APPROVED
  else if strContains cl "status: rejected" || strContains cl "**status:** rejected" then
    ApprovalStatus.REJECTED
  else ApprovalStatus.PENDING

/-- Predicate a directory entry must satisfy to be picked up for a request id
by _find_request_file: the id occurs in the filename and the name ends in .md. -/
def matchesRequest (requestId : String) (f : String × String) : Bool :=
  strContains f.fst requestId && strEndsWith f.fst ".md"

/-- Model of ApprovalRequestManager._find_request_file: the first file of the
Needs_Approval listing whose name contains the request id and ends in .md.
Only the Needs_Approval directory is ever searched. -/
def findRequestFile (needsApproval : List (String × String)) (requestId : String) :
    Option (String × String) :=
  needsApproval.find? (matchesRequest requestId)

/-- Model of ApprovalRequestManager.check_status restricted to the status field:
PENDING when no request file is found, otherwise the parsed status of the
found file content. -/
def checkStatus (needsApproval : List (String × String)) (requestId : String) :
    ApprovalStatus :=
  match findRequestFile needsApproval requestId with
  | none => ApprovalStatus.PENDING
  | some f => parseStatus f.snd

/-- Vault directories touched by finalize_request. -/
structure VaultState where
  needsApproval : List (String × String)
  approved : List (String × String)
  rejected : List (String × String)
  needsAction : List (String × String)
deriving DecidableEq, Repr

/-- Uppercased result word used in the finalization footer. -/
def resultUpper : ApprovalResult → String
  | .approved => "APPROVED"
  | .rejected => "REJECTED"
  | .timeout => "TIMEOUT"

/-- Finalization footer appended to the moved document
(finalize_request, finalization_note). -/
def footerFor (result : ApprovalResult) (footerTs : String) : String :=
  "\n\n---\n*" ++ resultUpper result ++ " at " ++ footerTs ++ "*\n"

/-- Destination write of finalize_request: the prefixed filename is used if
free, else the timestamp-suffixed variant; the document content plus footer is
written there with overwrite semantics. -/
def archiveInto (dir : List (String × String)) (filename content pfx nameTs footer : String) :
    List (String × String) :=
  writeFile dir (chooseDest dir (pfx ++ "_" ++ filename) nameTs) (content ++ footer)

/-- Model of ApprovalRequestManager.finalize_request: finds the request file in
Needs_Approval, writes it (with footer) into the folder selected by the result
(approved, rejected, or Needs_Action on timeout), and removes the source file.
If no request file is found nothing changes. -/
def finalizeRequest (s : VaultState) (requestId : String) (result : ApprovalResult)
    (nameTs footerTs : String) : VaultState :=
  match findRequestFile s.needsApproval requestId with
  | none => s
  | some f =>
    let remaining := s.needsApproval.eraseP (matchesRequest requestId)
    let footer := footerFor result footerTs
    match result with
    | .approved =>
      { s with needsApproval := remaining
               approved := archiveInto s.approved f.fst f.snd "approved" nameTs footer }
    | .rejected =>
      { s with needsApproval := remaining
               rejected := archiveInto s.rejected f.fst f.snd "rejected" nameTs footer }
    | .timeout =>
      { s with needsApproval := remaining
               needsAction := archiveInto s.needsAction f.fst f.snd "timeout" nameTs footer }

/-- Model of the blocking flow of HumanApprovalSkill.request_approval with
wait enabled: after wait_for_decision returns the decision, finalize_request
is called once; the second component counts the finalize invocations the flow
performs. -/
def requestApprovalFlow (s : VaultState) (requestId : String) (decision : ApprovalResult)
    (nameTs footerTs : String) : VaultState × Nat :=
  (finalizeRequest s requestId decision nameTs footerTs, 1)

/-- Idealized-time model of ApprovalRequestManager.wait_for_decision: polls at
the times 0, P, 2P, ... while the elapsed time is below the timeout, returning
a terminal decision as soon as a poll reports one and TIMEOUT (with the elapsed
time at return) once the deadline is reached. Polling and logging take no model
time; each sleep advances the clock by exactly the poll interval. -/
def waitLoop (poll : Nat → ApprovalStatus) (timeoutSeconds pollInterval : Nat)
    (hP : 0 < pollInterval) (elapsed : Nat) : ApprovalResult × Nat :=
  if _h : elapsed < timeoutSeconds then
    match poll elapsed with
    | .APPROVED => (ApprovalResult.approved, elapsed)
    | .REJECTED => (ApprovalResult.rejected, elapsed)
    | _ => waitLoop poll timeoutSeconds pollInterval hP (elapsed + pollInterval)
  else (ApprovalResult.timeout, elapsed)
termination_by timeoutSeconds - elapsed
decreasing_by omega

/-- Model of wait_for_decision at its public signature: the timeout is given in
minutes and converted to seconds, polling starts at elapsed time zero. -/
def waitForDecision (poll : Nat → ApprovalStatus) (timeoutMinutes pollInterval : Nat)
    (hP : 0 < pollInterval) : ApprovalResult × Nat :=
  waitLoop poll (timeoutMinutes * 60) pollInterval hP 0

end ReqApproval

namespace AuditLog

/-- Parse outcome of one line of actions.log as seen by the reading loop of
_write_log: a nonempty line that json.loads accepts, a line that raises
JSONDecodeError (such as a partial trailing line after a crash), or a
whitespace-only line that the strip test skips. -/
inductive LogLine where
  | ok (entry : String)
  | bad (raw : String)
  | blank
deriving DecidableEq, Repr

/-- Reading loop of _write_log with its surrounding try: entries accumulate
until a line fails to parse, at which point the except branch discards
everything collected so far. -/
def readLogsAux : List LogLine → Option (List String)
  | [] => some []
  | .blank :: t => readLogsAux t
  | .ok e :: t => (readLogsAux t).map (fun l => e :: l)
  | .bad _ :: _ => none

/-- Entries _write_log believes the existing file holds: all parsed entries
when every line parses, the empty list as soon as any line fails. -/
def readLogs (file : List LogLine) : List String :=
  (readLogsAux file).getD []

/-- Model of ApprovalLogger._write_log in request_approval.py and of the
character-identical ActionLogger._write_log in mcp_executor.py: the file is
reopened for writing and fully rewritten with the re-serialized surviving
entries followed by the new entry. -/
def writeLog (file : List LogLine) (entry : String) : List LogLine :=
  (readLogs file).map LogLine.ok ++ [LogLine.ok entry]

/-- Well-formed entries present in a log file, in order. -/
def okEntries (file : List LogLine) : List String :=
  file.filterMap (fun l => match l with | .ok e => some e | _ => none)

end AuditLog

namespace TaskTracker

/-- Condition of the persisted tracking store when TaskTracker starts:
missing, unreadable (open itself raises, e.g. a permission error), corrupt
(json.load raises JSONDecodeError), or well formed with a hash list. -/
inductive StoreState where
  | absent
  | unreadable
  | corrupt
  | wellFormed (hashes : List String)
deriving DecidableEq, Repr

/-- Result of loading the tracker: the processed set together with the log
entries written during the load. -/
structure LoadOutcome where
  processed : List String
  loggedErrors : List String
deriving DecidableEq, Repr

/-- Model of TaskTracker._load_tracking_data: a missing file yields the empty
set; JSONDecodeError and KeyError are caught by a bare pass (empty set, no log
entry written); any other exception, such as an unreadable file, escapes the
except clause and propagates. -/
def loadTrackingData : StoreState → Except String LoadOutcome
  | .absent => Except.ok { processed := [], loggedErrors := [] }
  | .unreadable => Except.error "PermissionError"
  | .corrupt => Except.ok { processed := [], loggedErrors := [] }
  | .wellFormed hs => Except.ok { processed := hs, loggedErrors := [] }

/-- Model of TaskTracker.is_processed: membership in the processed set. -/
def isProcessed (processed : List String) (h : String) : Bool :=
  processed.contains h

end TaskTracker

namespace TaskPlanner

/-- Content hash used for deduplication. The source takes the SHA-256 digest of
the raw bytes; the digest is modeled as the content itself, which preserves the
only property the pipeline relies on: equal content gives equal hash and the
hash is collision free. -/
def contentHash (content : String) : String := content

/-- Vault state touched by one pass of the task planner over one document. -/
structure PlannerState where
  tracker : List String
  plans : List String
  done : List String
  dashboard : List String
  log : List String
deriving DecidableEq, Repr

/-- Success path of _process_file: a plan artifact is saved, the document moves
to Done, a dashboard activity entry is inserted, the hash is marked processed,
and the per-step audit entries are appended. Plan text generation and entry
formatting are abstracted to one artifact per document content. -/
def processFile (s : PlannerState) (content : String) : PlannerState :=
  { tracker := contentHash content :: s.tracker
    plans := content :: s.plans
    done := content :: s.done
    dashboard := content :: s.dashboard
    log := s.log ++ ["content_analyzed", "plan_created", "file_moved"] }

/-- Per-file body of the scan loop in task_planner_skill: a document whose hash
is already tracked is skipped with no writes (only an in-memory counter moves),
otherwise it is processed. -/
def ingest (s : PlannerState) (content : String) : PlannerState :=
  if TaskTracker.isProcessed s.tracker (contentHash content) then s
  else processFile s content

/-- Model of task_planner._move_to_done: the destination name is the original
filename, or its timestamp-suffixed variant when that name is taken; the move
overwrites whatever sits at the chosen destination. -/
def moveToDone (done : List (String × String)) (filename content ts : String) :
    List (String × String) :=
  writeFile done (chooseDest done filename ts) content

end TaskPlanner

namespace LockFileManager

/-- Contents of the scheduler lock file: absent, just truncated to empty, or
holding the owning process identity as written by a successful acquire. -/
inductive LockFileContents where
  | absent
  | truncated
  | info (pid : Nat) (startedAt : String)
deriving DecidableEq, Repr

/-- Shared lock state: whether another live process holds the OS-level
exclusive lock, and what the lock file currently contains. -/
structure LockState where
  osLockHeld : Bool
  contents : LockFileContents
deriving DecidableEq, Repr

/-- Model of LockFileManager.acquire: the lock file is opened for writing,
which truncates it, before the non-blocking flock is attempted; if another
process holds the OS lock the flock raises and acquire returns False, leaving
the file truncated; otherwise the process info is written and True returned. -/
def acquire (s : LockState) (myPid : Nat) (now : String) : Bool × LockState :=
  let afterOpen : LockState := { s with contents := LockFileContents.truncated }
  if s.osLockHeld then
    (false, afterOpen)
  else
    (true, { osLockHeld := true, contents := LockFileContents.info myPid now })

/-- Model of LockFileManager.check_existing: reads the lock file and decodes
it; a missing file or one whose contents fail to decode (in particular the
empty, truncated file) yields None. -/
def checkExisting : LockFileContents → Option (Nat × String)
  | .absent => none
  | .truncated => none
  | .info p t => some (p, t)

/-- Observable outcome of the lock-acquisition prologue of run_daemon and
run_once when the lock is contended. -/
structure RunOutcome where
  exitCode : Nat
  iterations : Nat
  reported : Option (Nat × String)
  finalState : LockState
deriving DecidableEq, Repr

/-- Lock-check prologue shared by SilverScheduler.run_daemon and run_once: a
failed acquire logs the existing-instance info read back from the lock file
and returns exit code 1 before any iteration runs; a successful acquire
proceeds to the main loop, which is outside this model (None). -/
def runLockCheck (s : LockState) (myPid : Nat) (now : String) : Option RunOutcome :=
  let r := acquire s myPid now
  if r.fst then none
  else some { exitCode := 1, iterations := 0,
              reported := checkExisting r.snd.contents, finalState := r.snd }

end LockFileManager

/-! Helper lemmas shared by the claim theorems. -/

/-- A list is a Boolean prefix of itself followed by anything. -/
theorem isPrefixOf_append_self (l t : List Char) : l.isPrefixOf (l ++ t) = true := by
  exact List.isPrefixOf_iff_prefix.mpr (List.prefix_append l t)

/-- Substring containment holds whenever the needle occurs verbatim between
two arbitrary context lists. -/
theorem containsSub_append_self (needle a b : List Char) :
    containsSub needle (a ++ needle ++ b) = true := by
  induction a with
  | nil =>
    simp only [List.nil_append]
    cases h : needle ++ b with
    | nil =>
      have hn : needle = [] := by
        cases needle with
        | nil => rfl
        | cons x xs => simp at h
      simp [containsSub, hn]
    | cons x xs =>
      rw [containsSub, ← h, isPrefixOf_append_self]
      simp
  | cons x a ih =>
    have hx : (x :: a) ++ needle ++ b = x :: (a ++ needle ++ b) := by simp
    rw [hx, containsSub, ih, Bool.or_true]

/-- String append acts as list append on the underlying character data. -/
theorem strData_append (a b : String) : (a ++ b).data = a.data ++ b.data := by
  cases a
  cases b
  rfl

/-- The retry loop never invokes the performer more often than the number of
remaining attempts. -/
theorem executeWithRetryAux_invocations_le
    (performer : Nat → RetryHandler.CallResult) :
    ∀ remaining attempt,
      (RetryHandler.executeWithRetryAux performer attempt remaining).invocations ≤ remaining := by
  intro remaining
  induction remaining with
  | zero => intro attempt; simp [RetryHandler.executeWithRetryAux]
  | succ r ih =>
    intro attempt
    cases hp : performer attempt with
    | success => simp [RetryHandler.executeWithRetryAux, hp]
    | failure e =>
      have := ih (attempt + 1)
      simp only [RetryHandler.executeWithRetryAux, hp]
      omega

/-- Writing a file whose name is free in the directory appends it. -/
theorem writeFile_fresh (dir : List (String × String)) (name content : String)
    (h : hasName dir name = false) :
    writeFile dir name content = dir ++ [(name, content)] := by
  simp [writeFile, h]

/-- After erasing the first match from a list holding at most one match, no
match remains to be found. -/
theorem find_eraseP_none {α : Type} (p : α → Bool) (l : List α)
    (h : l.countP p ≤ 1) : (l.eraseP p).find? p = none := by
  induction l with
  | nil => simp
  | cons a t ih =>
    by_cases hpa : p a
    · rw [List.eraseP_cons_of_pos hpa]
      have hz : t.countP p = 0 := by
        rw [List.countP_cons, if_pos hpa] at h
        omega
      rw [List.find?_eq_none]
      intro x hx
      exact (List.countP_eq_zero.mp hz) x hx
    · rw [List.eraseP_cons_of_neg hpa, List.find?_cons_of_neg _ hpa]
      apply ih
      simpa [hpa] using h

/-- When every existing line parses, the reading loop of the audit-log write
recovers exactly the well-formed entries in order. -/
theorem readLogsAux_no_bad (file : List AuditLog.LogLine)
    (h : ∀ raw, AuditLog.LogLine.bad raw ∉ file) :
    AuditLog.readLogsAux file = some (AuditLog.okEntries file) := by
  induction file with
  | nil => rfl
  | cons l t ih =>
    have ht : ∀ raw, AuditLog.LogLine.bad raw ∉ t := by
      intro raw hm
      exact h raw (List.mem_cons_of_mem _ hm)
    cases l with
    | ok e => simp [AuditLog.readLogsAux, AuditLog.okEntries, ih ht]
    | bad raw => exact absurd (List.mem_cons_self _ _) (h raw)
    | blank => simp [AuditLog.readLogsAux, AuditLog.okEntries, ih ht]

/-- Fueled specification of the polling loop under a permanently pending
document: it returns TIMEOUT at the first multiple of the poll interval
reaching the deadline. -/
theorem waitLoop_pending_spec (poll : Nat → ReqApproval.ApprovalStatus)
    (T P : Nat) (hP : 0 < P)
    (hpoll : ∀ t, poll t = ReqApproval.ApprovalStatus.PENDING) :
    ∀ k elapsed, T - elapsed ≤ k → elapsed < T + P →
      (ReqApproval.waitLoop poll T P hP elapsed).1 = ReqApproval.ApprovalResult.timeout ∧
      T ≤ (ReqApproval.waitLoop poll T P hP elapsed).2 ∧
      (ReqApproval.waitLoop poll T P hP elapsed).2 < T + P := by
  intro k
  induction k with
  | zero =>
    intro elapsed hk hub
    have hge : ¬ elapsed < T := by omega
    rw [ReqApproval.waitLoop]
    simp only [hge, dite_false]
    exact ⟨by trivial, by omega, by omega⟩
  | succ n ih =>
    intro elapsed hk hub
    by_cases hlt : elapsed < T
    · rw [ReqApproval.waitLoop]
      simp only [hlt, dite_true, hpoll elapsed]
      exact ih (elapsed + P) (by omega) (by omega)
    · rw [ReqApproval.waitLoop]
      simp only [hlt, dite_false]
      exact ⟨by trivial, by omega, by omega⟩

/-- C1 counterexample: a performer that keeps reporting a PermissionError, a
non-retryable failure type, is nevertheless invoked three times (the default
maxRetries) by execute_with_retry, so the executor does re-invoke the
performer on non-retryable failures. -/
theorem retry_nonretryable_reinvoked :
    (RetryHandler.executeWithRetry (fun _ => RetryHandler.CallResult.failure "PermissionError")
      RetryHandler.DEFAULT_MAX_RETRIES).invocations = 3 ∧
    ¬ (RetryHandler.executeWithRetry (fun _ => RetryHandler.CallResult.failure "PermissionError")
      RetryHandler.DEFAULT_MAX_RETRIES).invocations ≤ 1 := by decide

/-- C1 amended: execute_with_retry invokes the performer at most maxRetries
times, but retries every failure regardless of risk level or error type; the
non-retryable policy for critical severity and permission, validation or
authentication failures lives only in the separate error-recovery system
predicate _should_retry, which suppresses its own scheduled retry. -/
theorem retry_bound_and_policy_amended :
    (∀ (performer : Nat → RetryHandler.CallResult) (maxRetries : Nat),
      (RetryHandler.executeWithRetry performer maxRetries).invocations ≤ maxRetries) ∧
    (∀ t : String, ErrorRecoverySystem.shouldRetry t "critical" = false) ∧
    (∀ s : String, ErrorRecoverySystem.shouldRetry "PermissionError" s = false) ∧
    (∀ s : String, ErrorRecoverySystem.shouldRetry "ValidationError" s = false) ∧
    (∀ s : String, ErrorRecoverySystem.shouldRetry "AuthenticationError" s = false) := by
  refine ⟨fun performer maxRetries => executeWithRetryAux_invocations_le performer maxRetries 1,
    fun t => by simp [ErrorRecoverySystem.shouldRetry], ?_, ?_, ?_⟩
  all_goals
    intro s
    by_cases hs : s = "critical"
    · simp [ErrorRecoverySystem.shouldRetry, hs]
    · simp only [ErrorRecoverySystem.shouldRetry, if_neg hs]
      decide

/-- C3 counterexample: a decision document containing both an approved and a
rejected marker polls as APPROVED, not PENDING; likewise a token that merely
embeds the approved marker as a substring is accepted, so matching is not
exact. -/
theorem conflicting_markers_parse_approved :
    ReqApproval.parseStatus "status: approved\nstatus: rejected" =
      ReqApproval.ApprovalStatus.APPROVED ∧
    ReqApproval.parseStatus "status: approved\nstatus: rejected" ≠
      ReqApproval.ApprovalStatus.PENDING ∧
    ReqApproval.parseStatus "xxstatus: approvedzz" = ReqApproval.ApprovalStatus.APPROVED := by
  decide

/-- C3 amended: status parsing is a case-insensitive substring search with the
approved markers taking priority: any document embedding the approved marker
anywhere, in any context and alongside any other markers, polls as APPROVED,
and PENDING is returned exactly when no marker substring occurs at all. -/
theorem parse_status_amended (pre post c : String)
    (h1 : strContains (strLower c) "status: approved" = false)
    (h2 : strContains (strLower c) "**status:** approved" = false)
    (h3 : strContains (strLower c) "status: rejected" = false)
    (h4 : strContains (strLower c) "**status:** rejected" = false) :
    ReqApproval.parseStatus (pre ++ "status: approved" ++ post) =
      ReqApproval.ApprovalStatus.APPROVED ∧
    ReqApproval.parseStatus c = ReqApproval.ApprovalStatus.PENDING := by
  constructor
  · have hc : strContains (strLower (pre ++ "status: approved" ++ post))
        "status: approved" = true := by
      show containsSub "status: approved".data
        ((pre ++ "status: approved" ++ post).data.map Char.toLower) = true
      rw [strData_append, strData_append, List.map_append, List.map_append]
      have hm : "status: approved".data.map Char.toLower = "status: approved".data := by
        decide
      rw [hm]
      exact containsSub_append_self _ _ _
    simp [ReqApproval.parseStatus, hc]
  · simp [ReqApproval.parseStatus, h1, h2, h3, h4]

/-- C3 amended witness at concrete inputs. -/
theorem parse_status_amended_witness :
    ReqApproval.parseStatus ("header " ++ "status: approved" ++ " and status: rejected") =
      ReqApproval.ApprovalStatus.APPROVED ∧
    ReqApproval.parseStatus "no decision yet" = ReqApproval.ApprovalStatus.PENDING :=
  parse_status_amended "header " " and status: rejected" "no decision yet"
    (by decide) (by decide) (by decide) (by decide)

/-- C7 counterexample: a task containing both payment and urgent classifies as
financial with risk level high, the financial baseline, not critical; no rule
of the classifier escalates the risk tier for urgency. -/
theorem payment_urgent_not_critical :
    RalphWiggum.analyzeTask "urgent payment" =
      { taskType := "financial", riskLevel := RalphWiggum.RiskLevel.high,
        requiresApproval := true } ∧
    RalphWiggum.RiskLevel.high ≠ RalphWiggum.RiskLevel.critical := by decide

/-- C7 amended: text containing payment and urgent yields task type financial
at the financial baseline risk high (never critical); the urgency keywords
only set the separate priority field of the task-planner analyzer, whose own
task-type table has no financial type at all. -/
theorem risk_classification_amended (content : String)
    (h1 : strContains (strLower content) "payment" = true)
    (h2 : strContains (strLower content) "urgent" = true) :
    (RalphWiggum.analyzeTask content).taskType = "financial" ∧
    (RalphWiggum.analyzeTask content).riskLevel = RalphWiggum.RiskLevel.high ∧
    TaskPlanner.priorityOf content = "urgent" ∧
    TaskPlanner.taskTypeOf content ≠ "financial" := by
  have hfin : anyKeyword (strLower content) ["payment", "money", "transfer", "invoice"] = true := by
    simp [anyKeyword, h1]
  have hurg : anyKeyword (strLower content)
      ["urgent", "asap", "immediate", "priority", "critical"] = true := by
    simp [anyKeyword, h2]
  refine ⟨?_, ?_, ?_, ?_⟩
  · simp [RalphWiggum.analyzeTask, hfin]
  · simp [RalphWiggum.analyzeTask, hfin]
  · simp [TaskPlanner.priorityOf, hurg]
  · unfold TaskPlanner.taskTypeOf
    dsimp only
    split_ifs <;> decide

/-- C7 amended witness at a concrete input. -/
theorem risk_classification_amended_witness :
    (RalphWiggum.analyzeTask "urgent payment").taskType = "financial" ∧
    (RalphWiggum.analyzeTask "urgent payment").riskLevel = RalphWiggum.RiskLevel.high ∧
    TaskPlanner.priorityOf "urgent payment" = "urgent" ∧
    TaskPlanner.taskTypeOf "urgent payment" ≠ "financial" :=
  risk_classification_amended "urgent payment" (by decide) (by decide)

/-- C2 counterexample: a poll of a request whose document carries the approved
marker returns APPROVED, but after finalize moves the document out of the
Needs_Approval folder the very next poll returns PENDING, not the terminal
value, because the status check only ever searches Needs_Approval. -/
theorem poll_after_finalize_flips_to_pending :
    ReqApproval.checkStatus [("req1.md", "status: approved")] "req1" =
      ReqApproval.ApprovalStatus.APPROVED ∧
    ReqApproval.checkStatus
      (ReqApproval.finalizeRequest ⟨[("req1.md", "status: approved")], [], [], []⟩
        "req1" ReqApproval.ApprovalResult.approved "20260101_120000"
        "2026-01-01 12:00:00").needsApproval "req1" =
      ReqApproval.ApprovalStatus.PENDING ∧
    ReqApproval.ApprovalStatus.PENDING ≠ ReqApproval.ApprovalStatus.APPROVED := by decide

/-- C2 amended: the blocking approval flow invokes finalize exactly once, and
once finalize has moved the decision document (with at most one file matching
the request id present), every subsequent poll for that request returns
PENDING rather than the previously observed terminal value. -/
theorem approval_terminality_amended (s : ReqApproval.VaultState) (rid : String)
    (res : ReqApproval.ApprovalResult) (nameTs footerTs : String)
    (h : s.needsApproval.countP (ReqApproval.matchesRequest rid) ≤ 1) :
    ReqApproval.checkStatus
      (ReqApproval.finalizeRequest s rid res nameTs footerTs).needsApproval rid =
      ReqApproval.ApprovalStatus.PENDING ∧
    (ReqApproval.requestApprovalFlow s rid res nameTs footerTs).2 = 1 := by
  constructor
  · cases hf : ReqApproval.findRequestFile s.needsApproval rid with
    | none => simp [ReqApproval.finalizeRequest, hf, ReqApproval.checkStatus]
    | some f =>
      have hrem := find_eraseP_none (ReqApproval.matchesRequest rid) s.needsApproval h
      have hf2 : List.find? (ReqApproval.matchesRequest rid) s.needsApproval = some f := hf
      cases res <;>
        simp [ReqApproval.finalizeRequest, ReqApproval.checkStatus,
          ReqApproval.findRequestFile, hf2, hrem]
  · rfl

/-- C2 amended witness at a concrete request. -/
theorem approval_terminality_amended_witness :
    ReqApproval.checkStatus
      (ReqApproval.finalizeRequest ⟨[("req1.md", "status: approved")], [], [], []⟩
        "req1" ReqApproval.ApprovalResult.approved "t1" "t2").needsApproval "req1" =
      ReqApproval.ApprovalStatus.PENDING ∧
    (ReqApproval.requestApprovalFlow ⟨[("req1.md", "status: approved")], [], [], []⟩
      "req1" ReqApproval.ApprovalResult.approved "t1" "t2").2 = 1 :=
  approval_terminality_amended ⟨[("req1.md", "status: approved")], [], [], []⟩
    "req1" ReqApproval.ApprovalResult.approved "t1" "t2" (by decide)

/-- C4 counterexample: with a well-formed entry followed by a partial trailing
line, the next audit-log write discards the prior entry entirely and rewrites
the file to hold only the new entry. -/
theorem partial_line_discards_log :
    AuditLog.writeLog [AuditLog.LogLine.ok "entry1", AuditLog.LogLine.bad "partial"] "entry2" =
      [AuditLog.LogLine.ok "entry2"] ∧
    AuditLog.LogLine.ok "entry1" ∉
      AuditLog.writeLog [AuditLog.LogLine.ok "entry1", AuditLog.LogLine.bad "partial"]
        "entry2" := by decide

/-- C4 amended: the audit-log write rewrites the whole file rather than
appending; prior well-formed entries survive a write exactly when every
existing nonblank line parses, in which case the new file is the re-serialized
old entries followed by the new one. -/
theorem audit_log_rewrite_amended (file : List AuditLog.LogLine) (entry : String)
    (h : ∀ raw, AuditLog.LogLine.bad raw ∉ file) :
    AuditLog.writeLog file entry =
      (AuditLog.okEntries file).map AuditLog.LogLine.ok ++ [AuditLog.LogLine.ok entry] := by
  unfold AuditLog.writeLog AuditLog.readLogs
  rw [readLogsAux_no_bad file h]
  rfl

/-- C4 amended witness at a concrete log. -/
theorem audit_log_rewrite_amended_witness :
    AuditLog.writeLog [AuditLog.LogLine.ok "a", AuditLog.LogLine.blank] "b" =
      (AuditLog.okEntries [AuditLog.LogLine.ok "a", AuditLog.LogLine.blank]).map
        AuditLog.LogLine.ok ++ [AuditLog.LogLine.ok "b"] :=
  audit_log_rewrite_amended [AuditLog.LogLine.ok "a", AuditLog.LogLine.blank] "b"
    (by intro raw hm; simp at hm)

/-- C5 confirmed: under the idealized clock, when no poll ever observes a
terminal status, the wait loop returns TIMEOUT at a time no earlier than the
timeout and no later than the timeout plus one poll interval; the same window
holds for wait_for_decision with its timeout given in minutes. -/
theorem wait_for_decision_timeout_window (poll : Nat → ReqApproval.ApprovalStatus)
    (T P m : Nat) (hP : 0 < P)
    (hpoll : ∀ t, poll t = ReqApproval.ApprovalStatus.PENDING) :
    ((ReqApproval.waitLoop poll T P hP 0).1 = ReqApproval.ApprovalResult.timeout ∧
      T ≤ (ReqApproval.waitLoop poll T P hP 0).2 ∧
      (ReqApproval.waitLoop poll T P hP 0).2 ≤ T + P) ∧
    ((ReqApproval.waitForDecision poll m P hP).1 = ReqApproval.ApprovalResult.timeout ∧
      m * 60 ≤ (ReqApproval.waitForDecision poll m P hP).2 ∧
      (ReqApproval.waitForDecision poll m P hP).2 ≤ m * 60 + P) := by
  have h1 := waitLoop_pending_spec poll T P hP hpoll T 0 (by omega) (by omega)
  have h2 := waitLoop_pending_spec poll (m * 60) P hP hpoll (m * 60) 0 (by omega) (by omega)
  constructor
  · exact ⟨h1.1, h1.2.1, by omega⟩
  · rw [show ReqApproval.waitForDecision poll m P hP =
      ReqApproval.waitLoop poll (m * 60) P hP 0 from rfl]
    exact ⟨h2.1, h2.2.1, by omega⟩

/-- C5 witness at concrete timeout and poll interval. -/
theorem wait_for_decision_timeout_window_witness :
    ((ReqApproval.waitLoop (fun _ => ReqApproval.ApprovalStatus.PENDING) 25 10
        (by decide) 0).1 = ReqApproval.ApprovalResult.timeout ∧
      25 ≤ (ReqApproval.waitLoop (fun _ => ReqApproval.ApprovalStatus.PENDING) 25 10
        (by decide) 0).2 ∧
      (ReqApproval.waitLoop (fun _ => ReqApproval.ApprovalStatus.PENDING) 25 10
        (by decide) 0).2 ≤ 25 + 10) ∧
    ((ReqApproval.waitForDecision (fun _ => ReqApproval.ApprovalStatus.PENDING) 1 10
        (by decide)).1 = ReqApproval.ApprovalResult.timeout ∧
      1 * 60 ≤ (ReqApproval.waitForDecision (fun _ => ReqApproval.ApprovalStatus.PENDING) 1 10
        (by decide)).2 ∧
      (ReqApproval.waitForDecision (fun _ => ReqApproval.ApprovalStatus.PENDING) 1 10
        (by decide)).2 ≤ 1 * 60 + 10) :=
  wait_for_decision_timeout_window (fun _ => ReqApproval.ApprovalStatus.PENDING)
    25 10 1 (by decide) (fun _ => rfl)

/-- C6 confirmed: ingesting the same document content twice from a state that
has not yet processed it changes the state only once: the second ingestion is
recognized by the hash check and performs no writes, so exactly one plan
artifact and exactly one dashboard entry result. -/
theorem ingest_idempotent (s : TaskPlanner.PlannerState) (c : String)
    (h : TaskTracker.isProcessed s.tracker (TaskPlanner.contentHash c) = false) :
    TaskPlanner.ingest (TaskPlanner.ingest s c) c = TaskPlanner.ingest s c ∧
    (TaskPlanner.ingest (TaskPlanner.ingest s c) c).plans.length = s.plans.length + 1 ∧
    (TaskPlanner.ingest (TaskPlanner.ingest s c) c).dashboard.length =
      s.dashboard.length + 1 := by
  have h2 : TaskTracker.isProcessed (TaskPlanner.contentHash c :: s.tracker)
      (TaskPlanner.contentHash c) = true := by
    simp [TaskTracker.isProcessed]
  refine ⟨?_, ?_, ?_⟩ <;> simp [TaskPlanner.ingest, h, h2, TaskPlanner.processFile]

/-- C6 witness at a concrete fresh state and document. -/
theorem ingest_idempotent_witness :
    TaskPlanner.ingest (TaskPlanner.ingest ⟨[], [], [], [], []⟩ "doc") "doc" =
      TaskPlanner.ingest ⟨[], [], [], [], []⟩ "doc" ∧
    (TaskPlanner.ingest (TaskPlanner.ingest ⟨[], [], [], [], []⟩ "doc") "doc").plans.length =
      (⟨[], [], [], [], []⟩ : TaskPlanner.PlannerState).plans.length + 1 ∧
    (TaskPlanner.ingest (TaskPlanner.ingest ⟨[], [], [], [], []⟩ "doc") "doc").dashboard.length =
      (⟨[], [], [], [], []⟩ : TaskPlanner.PlannerState).dashboard.length + 1 :=
  ingest_idempotent ⟨[], [], [], [], []⟩ "doc" (by decide)

/-- C8 counterexample: loading a corrupt tracking store yields the empty
processed-set with an empty list of logged errors, so the corruption is not
logged; and an unreadable store does not fall back at all, the open error
propagates out of the loader. -/
theorem corrupt_store_unlogged :
    TaskTracker.loadTrackingData TaskTracker.StoreState.corrupt =
      Except.ok { processed := [], loggedErrors := [] } ∧
    TaskTracker.loadTrackingData TaskTracker.StoreState.unreadable =
      Except.error "PermissionError" :=
  ⟨rfl, rfl⟩

/-- C8 amended: a corrupt (or missing) tracking store falls back to the empty
processed-set, after which isProcessed answers false for every hash, but no
log entry about the corruption is written; an unreadable store is not caught
and the exception propagates. -/
theorem tracker_load_fallback_amended :
    TaskTracker.loadTrackingData TaskTracker.StoreState.corrupt =
      Except.ok { processed := [], loggedErrors := [] } ∧
    TaskTracker.loadTrackingData TaskTracker.StoreState.absent =
      Except.ok { processed := [], loggedErrors := [] } ∧
    (∀ h : String, TaskTracker.isProcessed [] h = false) ∧
    TaskTracker.loadTrackingData TaskTracker.StoreState.unreadable =
      Except.error "PermissionError" :=
  ⟨rfl, rfl, fun _ => rfl, rfl⟩

/-- C9 evaluation at the failing input: while a first instance with pid 4242
holds the OS lock and the lock file records its identity, a second instance
running the scheduler detects the lock, performs no iteration and exits with
code 1 as claimed, but its acquire has already opened the lock file for
writing and truncated it, so the recorded owner identity is destroyed and the
existing-instance lookup reports None. -/
theorem second_instance_truncates_lock :
    LockFileManager.runLockCheck
      ⟨true, LockFileManager.LockFileContents.info 4242 "2026-10-12 09:00:00"⟩
      777 "2026-10-12 10:00:00" =
      some { exitCode := 1, iterations := 0, reported := none,
             finalState := ⟨true, LockFileManager.LockFileContents.truncated⟩ } ∧
    LockFileManager.LockFileContents.truncated ≠
      LockFileManager.LockFileContents.info 4242 "2026-10-12 09:00:00" ∧
    LockFileManager.checkExisting LockFileManager.LockFileContents.truncated = none := by
  decide

/-- C10 counterexample: when the timestamp-suffixed fallback name is itself
already taken (a same-second collision), the move overwrites the previously
archived document instead of preserving it. -/
theorem timestamp_collision_overwrites :
    TaskPlanner.moveToDone [("a.md", "old1"), ("a_20260101_120000.md", "old2")]
      "a.md" "new" "20260101_120000" =
      [("a.md", "old1"), ("a_20260101_120000.md", "new")] ∧
    lookupFile [("a.md", "old1"), ("a_20260101_120000.md", "old2")]
      "a_20260101_120000.md" = some "old2" ∧
    ("a_20260101_120000.md", "old2") ∉
      TaskPlanner.moveToDone [("a.md", "old1"), ("a_20260101_120000.md", "old2")]
        "a.md" "new" "20260101_120000" := by decide

/-- C10 amended: when the primary destination name exists, the document is
written under the timestamp-suffixed name, and provided that suffixed name is
itself still free the operation purely appends, preserving every existing
file; the same holds for the finalize-side archive write. The freshness of
the suffixed name is not re-checked by the code, which is what the
counterexample exploits. -/
theorem archive_no_overwrite_amended
    (done dir2 : List (String × String))
    (filename content ts pfx fname2 content2 footer : String)
    (h1 : hasName done filename = true)
    (h2 : hasName done (tsName filename ts) = false)
    (h3 : hasName dir2 (pfx ++ "_" ++ fname2) = true)
    (h4 : hasName dir2 (tsName (pfx ++ "_" ++ fname2) ts) = false) :
    TaskPlanner.moveToDone done filename content ts =
      done ++ [(tsName filename ts, content)] ∧
    ReqApproval.archiveInto dir2 fname2 content2 pfx ts footer =
      dir2 ++ [(tsName (pfx ++ "_" ++ fname2) ts, content2 ++ footer)] := by
  constructor
  · unfold TaskPlanner.moveToDone chooseDest
    rw [if_pos h1]
    exact writeFile_fresh done (tsName filename ts) content h2
  · unfold ReqApproval.archiveInto chooseDest
    rw [if_pos h3]
    exact writeFile_fresh dir2 (tsName (pfx ++ "_" ++ fname2) ts) (content2 ++ footer) h4

/-- C10 amended witness at concrete directories. -/
theorem archive_no_overwrite_amended_witness :
    TaskPlanner.moveToDone [("a.md", "x")] "a.md" "new" "T" =
      [("a.md", "x")] ++ [(tsName "a.md" "T", "new")] ∧
    ReqApproval.archiveInto [("approved_r.md", "y")] "r.md" "c" "approved" "T" "f" =
      [("approved_r.md", "y")] ++ [(tsName ("approved" ++ "_" ++ "r.md") "T", "c" ++ "f")] :=
  archive_no_overwrite_amended [("a.md", "x")] [("approved_r.md", "y")]
    "a.md" "new" "T" "approved" "r.md" "c" "f"
    (by decide) (by decide) (by decide) (by decide)
